import Mathlib

/-!
Verification of the a2a_demo repository: a shallow embedding of its
protocol/orchestration layer (authentication gate, push-notification
registration, metadata merging, orchestrator routing) together with
theorems settling the specification claims.

Python dictionaries carrying metadata are embedded as association lists
`List (String × α)` with first-match lookup; `dict.update` iterates the
source in order, assigning each key, which `dictUpdate` mirrors.
-/

set_option autoImplicit false

universe u

/-- Association-list model of a Python dict: first entry with a matching key. -/
def dlookup {α : Type u} : List (String × α) → String → Option α
  | [], _ => none
  | (k', v) :: rest, k => if k' = k then some v else dlookup rest k

/-- Python `d[k] = v`: replace the value at the first occurrence of `k`
in place, else append the new binding at the end (dict insertion order). -/
def setItem {α : Type u} : List (String × α) → String → α → List (String × α)
  | [], k, v => [(k, v)]
  | (k', v') :: rest, k, v =>
      if k' = k then (k', v) :: rest else (k', v') :: setItem rest k v

/-- Python `target.update(source)`: assign every binding of `source` into
`target`, in iteration order. -/
def dictUpdate {α : Type u} (d s : List (String × α)) : List (String × α) :=
  s.foldl (fun acc kv => setItem acc kv.1 kv.2) d

/-- Keys of an association list, in order. -/
def dkeys {α : Type u} (d : List (String × α)) : List String :=
  d.map Prod.fst

/-- First option if present, else the second (Python-style fallback). -/
def oalt {α : Type u} (a b : Option α) : Option α :=
  match a with
  | some v => some v
  | none => b

/-- Python truthiness of an optional dict: `None` and the empty dict are falsy. -/
def mtruthy {α : Type u} : Option (List (String × α)) → Bool
  | none => false
  | some d => !d.isEmpty

/-- Embedding of `merge_metadata(target, source)` from
purchasing_concierge/remote_agent_connection.py: when both metadata are
truthy the target dict is updated from the source; when only the source is
truthy the target becomes a copy of the source; otherwise the target is
left as it is. -/
def merge_metadata {α : Type u} (target source : Option (List (String × α))) :
    Option (List (String × α)) :=
  if mtruthy target && mtruthy source then
    some (dictUpdate (target.getD []) (source.getD []))
  else if mtruthy source then
    some (source.getD [])
  else
    target

@[simp]
theorem dkeys_nil {α : Type u} : dkeys ([] : List (String × α)) = [] := rfl

@[simp]
theorem dkeys_cons {α : Type u} (k : String) (v : α) (tl : List (String × α)) :
    dkeys ((k, v) :: tl) = k :: dkeys tl := rfl

theorem dlookup_eq_none {α : Type u} (d : List (String × α)) (k : String)
    (h : k ∉ dkeys d) : dlookup d k = none := by
  induction d with
  | nil => rfl
  | cons hd tl ih =>
      obtain ⟨k0, v0⟩ := hd
      simp at h
      have h1 : ¬ k0 = k := fun he => h.1 he.symm
      simp [dlookup, h1, ih h.2]

theorem dlookup_setItem {α : Type u} (d : List (String × α)) (k k' : String) (v : α) :
    dlookup (setItem d k v) k' = if k' = k then some v else dlookup d k' := by
  induction d with
  | nil =>
      by_cases h : k' = k
      · simp [setItem, dlookup, h]
      · have h2 : ¬ k = k' := fun he => h he.symm
        simp [setItem, dlookup, h, h2]
  | cons hd tl ih =>
      obtain ⟨k0, v0⟩ := hd
      by_cases h0 : k0 = k
      · subst h0
        by_cases h : k' = k0
        · simp [setItem, dlookup, h]
        · have h2 : ¬ k0 = k' := fun he => h he.symm
          simp [setItem, dlookup, h, h2]
      · by_cases h : k0 = k'
        · have h3 : ¬ k' = k := fun he => h0 (h.trans he)
          simp [setItem, dlookup, h0, h, h3]
        · simp [setItem, dlookup, h0, h, ih]

theorem dlookup_dictUpdate {α : Type u} (s : List (String × α))
    (hs : (dkeys s).Nodup) (d : List (String × α)) (k : String) :
    dlookup (dictUpdate d s) k = oalt (dlookup s k) (dlookup d k) := by
  induction s generalizing d with
  | nil => simp [dictUpdate, dlookup, oalt]
  | cons hd tl ih =>
      obtain ⟨k0, v0⟩ := hd
      have hnd : (dkeys tl).Nodup := (List.nodup_cons.mp hs).2
      have hnotin : k0 ∉ dkeys tl := (List.nodup_cons.mp hs).1
      have step : dictUpdate d ((k0, v0) :: tl) = dictUpdate (setItem d k0 v0) tl := rfl
      rw [step, ih hnd]
      by_cases h : k = k0
      · subst h
        have htl : dlookup tl k = none := dlookup_eq_none tl k hnotin
        simp [dlookup, htl, oalt, dlookup_setItem]
      · have hne : ¬ k0 = k := fun he => h he.symm
        simp [dlookup, hne, dlookup_setItem, h, oalt]

theorem setItem_self {α : Type u} (d : List (String × α)) (k : String) (v : α)
    (h : dlookup d k = some v) : setItem d k v = d := by
  induction d with
  | nil => simp [dlookup] at h
  | cons hd tl ih =>
      obtain ⟨k0, v0⟩ := hd
      by_cases h0 : k0 = k
      · subst h0
        simp [dlookup] at h
        simp [setItem, h]
      · simp [dlookup, h0] at h
        simp [setItem, h0, ih h]

theorem dictUpdate_self {α : Type u} (s d : List (String × α))
    (h : ∀ kv ∈ s, dlookup d kv.1 = some kv.2) : dictUpdate d s = d := by
  induction s generalizing d with
  | nil => rfl
  | cons hd tl ih =>
      obtain ⟨k0, v0⟩ := hd
      have h0 : dlookup d k0 = some v0 := h (k0, v0) (by simp)
      have step : dictUpdate d ((k0, v0) :: tl) = dictUpdate (setItem d k0 v0) tl := rfl
      rw [step, setItem_self d k0 v0 h0]
      exact ih d (fun kv hkv => h kv (by simp [hkv]))

theorem dlookup_of_mem {α : Type u} (s : List (String × α)) (hs : (dkeys s).Nodup)
    (kv : String × α) (h : kv ∈ s) : dlookup s kv.1 = some kv.2 := by
  induction s with
  | nil => simp at h
  | cons hd tl ih =>
      obtain ⟨k0, v0⟩ := hd
      have hnotin : k0 ∉ dkeys tl := (List.nodup_cons.mp hs).1
      rcases List.mem_cons.mp h with h1 | h1
      · subst h1; simp [dlookup]
      · have hne : ¬ k0 = kv.1 := by
          intro he
          exact hnotin (by simpa [dkeys, he] using List.mem_map_of_mem Prod.fst h1)
        simp [dlookup, hne]
        exact ih (List.nodup_cons.mp hs).2 h1

theorem dictUpdate_ne_nil {α : Type u} (d s : List (String × α)) (hd : d ≠ []) :
    dictUpdate d s ≠ [] := by
  induction s generalizing d with
  | nil => exact hd
  | cons hd0 tl ih =>
      obtain ⟨k0, v0⟩ := hd0
      have step : dictUpdate d ((k0, v0) :: tl) = dictUpdate (setItem d k0 v0) tl := rfl
      rw [step]
      refine ih (setItem d k0 v0) ?_
      cases d with
      | nil => simp at hd
      | cons p rest =>
          obtain ⟨k1, v1⟩ := p
          by_cases h : k1 = k0 <;> simp [setItem, h]

@[simp]
theorem oalt_none {α : Type u} (b : Option α) : oalt none b = b := rfl

@[simp]
theorem oalt_some {α : Type u} (a : α) (b : Option α) : oalt (some a) b = some a := rfl

@[simp]
theorem oalt_none_right {α : Type u} (a : Option α) : oalt a none = a := by
  cases a <;> rfl

@[simp]
theorem dlookup_nil {α : Type u} (k : String) : dlookup ([] : List (String × α)) k = none := rfl

theorem dlookup_dictUpdate_mem {α : Type u} (td sd : List (String × α))
    (hs : (dkeys sd).Nodup) :
    ∀ kv ∈ sd, dlookup (dictUpdate td sd) kv.1 = some kv.2 := by
  intro kv hkv
  rw [dlookup_dictUpdate sd hs td kv.1, dlookup_of_mem sd hs kv hkv]
  rfl

/-- Claim C3: `merge_metadata(target, source)` computes the union of the two
metadata dicts with the source winning on every common key, never deletes a
key already present in the target, and merging the same source twice gives
the same result as merging it once, provided the source dict has no
duplicate keys (always true of a Python dict). -/
theorem merge_metadata_union_sourceWins_idem {α : Type u}
    (t s : Option (List (String × α))) (hs : (dkeys (s.getD [])).Nodup) :
    (∀ k, dlookup ((merge_metadata t s).getD []) k
        = oalt (dlookup (s.getD []) k) (dlookup (t.getD []) k))
    ∧ (∀ k v, dlookup (t.getD []) k = some v →
        ∃ w, dlookup ((merge_metadata t s).getD []) k = some w)
    ∧ merge_metadata (merge_metadata t s) s = merge_metadata t s := by
  rcases s with _ | sd
  · refine ⟨fun k => by simp [merge_metadata, mtruthy, dlookup, oalt], ?_, ?_⟩
    · intro k v hv
      exact ⟨v, by simpa [merge_metadata, mtruthy] using hv⟩
    · simp [merge_metadata, mtruthy]
  · rcases sd with _ | ⟨p, rest⟩
    · refine ⟨fun k => by simp [merge_metadata, mtruthy, dlookup, oalt], ?_, ?_⟩
      · intro k v hv
        exact ⟨v, by simpa [merge_metadata, mtruthy] using hv⟩
      · simp [merge_metadata, mtruthy]
    · -- the source metadata is truthy
      have hsd : (dkeys (p :: rest)).Nodup := by simpa using hs
      rcases t with _ | td
      · -- target metadata absent: target becomes a copy of the source
        have hm : merge_metadata (none : Option (List (String × α))) (some (p :: rest))
            = some (p :: rest) := by
          simp [merge_metadata, mtruthy]
        refine ⟨fun k => by simp [hm], ?_, ?_⟩
        · intro k v hv
          simp [dlookup] at hv
        · rw [hm]
          have hcopy : dictUpdate (p :: rest) (p :: rest) = p :: rest :=
            dictUpdate_self (p :: rest) (p :: rest)
              (fun kv hkv => dlookup_of_mem (p :: rest) hsd kv hkv)
          simp [merge_metadata, mtruthy, hcopy]
      · rcases td with _ | ⟨q, trest⟩
        · -- target metadata is the empty dict, equally falsy
          have hm : merge_metadata (some ([] : List (String × α))) (some (p :: rest))
              = some (p :: rest) := by
            simp [merge_metadata, mtruthy]
          refine ⟨fun k => by simp [hm], ?_, ?_⟩
          · intro k v hv
            simp [dlookup] at hv
          · rw [hm]
            have hcopy : dictUpdate (p :: rest) (p :: rest) = p :: rest :=
              dictUpdate_self (p :: rest) (p :: rest)
                (fun kv hkv => dlookup_of_mem (p :: rest) hsd kv hkv)
            simp [merge_metadata, mtruthy, hcopy]
        · -- both metadata truthy: the target dict is updated from the source
          have hm : merge_metadata (some (q :: trest)) (some (p :: rest))
              = some (dictUpdate (q :: trest) (p :: rest)) := by
            simp [merge_metadata, mtruthy]
          refine ⟨?_, ?_, ?_⟩
          · intro k
            rw [hm]
            simpa using dlookup_dictUpdate (p :: rest) hsd (q :: trest) k
          · intro k v hv
            rw [hm]
            simp only [Option.getD_some]
            rw [dlookup_dictUpdate (p :: rest) hsd (q :: trest) k]
            simp only [Option.getD_some] at hv
            rcases hw : dlookup (p :: rest) k with _ | w
            · exact ⟨v, by simp [hw, hv, oalt]⟩
            · exact ⟨w, by simp [hw, oalt]⟩
          · rw [hm]
            have hne : dictUpdate (q :: trest) (p :: rest) ≠ [] :=
              dictUpdate_ne_nil (q :: trest) (p :: rest) (List.cons_ne_nil q trest)
            have hidem : dictUpdate (dictUpdate (q :: trest) (p :: rest)) (p :: rest)
                = dictUpdate (q :: trest) (p :: rest) :=
              dictUpdate_self (p :: rest) (dictUpdate (q :: trest) (p :: rest))
                (dlookup_dictUpdate_mem (q :: trest) (p :: rest) hsd)
            simp [merge_metadata, mtruthy, List.isEmpty_iff, hne, hidem]

/-- Witness for claim C3 at concrete metadata dicts. -/
theorem merge_metadata_union_sourceWins_idem_witness :
    (dkeys ((some [("b", 2), ("c", 3)] : Option (List (String × Nat))).getD [])).Nodup
    ∧ ((∀ k, dlookup ((merge_metadata (some [("a", 1), ("b", 9)])
            (some [("b", 2), ("c", 3)])).getD ([] : List (String × Nat))) k
        = oalt (dlookup [("b", 2), ("c", 3)] k) (dlookup [("a", 1), ("b", 9)] k))
    ∧ (∀ k v, dlookup ([("a", 1), ("b", 9)] : List (String × Nat)) k = some v →
        ∃ w, dlookup ((merge_metadata (some [("a", 1), ("b", 9)])
            (some [("b", 2), ("c", 3)])).getD []) k = some w)
    ∧ merge_metadata (merge_metadata (some [("a", 1), ("b", 9)])
          (some [("b", 2), ("c", 3)])) (some [("b", 2), ("c", 3)])
        = merge_metadata (some [("a", 1), ("b", 9)]) (some [("b", 2), ("c", 3)])) := by
  refine ⟨by decide, ?_⟩
  exact merge_metadata_union_sourceWins_idem
    (some [("a", 1), ("b", 9)]) (some [("b", 2), ("c", 3)]) (by decide)

namespace A2A

/-- Modelled from the spec: the closed task-state enum of the a2a_types
module (not shipped under src/): WORKING, INPUT_REQUIRED, COMPLETED,
CANCELED, FAILED, UNKNOWN. -/
inductive TaskState where
  | working
  | input_required
  | completed
  | canceled
  | failed
  | unknown
deriving DecidableEq, Repr

/-- Modelled from the spec: a Part is a tagged union where only the `text`
variant carries meaning to this layer; every other variant is kept as its
tag. `partTag` is the Python `part.type` discriminator. -/
inductive Part where
  | text (text : String)
  | other (tag : String)
deriving DecidableEq, Repr

/-- The `type` discriminator of a Part. -/
def partTag : Part → String
  | Part.text _ => "text"
  | Part.other tag => tag

/-- Modelled from the spec: a protocol Message of the a2a_types module
(role, ordered parts, metadata mapping). -/
structure Message where
  role : String
  parts : List Part
  metadata : Option (List (String × String))
deriving DecidableEq, Repr

/-- Modelled from the spec: an Artifact groups an ordered sequence of parts. -/
structure Artifact where
  parts : List Part
deriving DecidableEq, Repr

/-- Modelled from the spec: a task status is a state plus an optional message. -/
structure TaskStatus where
  state : TaskState
  message : Option Message
deriving DecidableEq, Repr

/-- Modelled from the spec: a Task record of the a2a_types module. -/
structure Task where
  id : String
  sessionId : String
  status : TaskStatus
  artifacts : Option (List Artifact)
  history : Option (List Message)
  metadata : Option (List (String × String))
deriving DecidableEq, Repr

/-- Modelled from the spec: a push-notification registration: the callback
URL plus an optional token. -/
structure PushNotificationConfig where
  url : String
  token : Option String
deriving DecidableEq, Repr

/-- Modelled from the spec: the parameters of a send-task request. -/
structure TaskSendParams where
  id : String
  sessionId : String
  message : Message
  acceptedOutputModes : List String
  pushNotification : Option PushNotificationConfig
  historyLength : Option Nat
  metadata : Option (List (String × String))
deriving DecidableEq, Repr

/-- Embedding of `RemoteAgentConnections.send_task` from
purchasing_concierge/remote_agent_connection.py, restricted to its
data transformation: the remote call is abstracted by passing the returned
`response.result` task in, and the single `uuid.uuid4()` draw is passed in
as `freshMessageId`. The task metadata is merged from the request, then, if
the status message is present, its metadata is merged from the request
message, any present `message_id` is saved under `last_message_id`, and a
fresh `message_id` is assigned. -/
def rac_send_task (freshMessageId : String) (request : TaskSendParams)
    (result : Task) : Task :=
  let r1 : Task := { result with metadata := merge_metadata result.metadata request.metadata }
  match r1.status.message with
  | none => r1
  | some m0 =>
      let m1 : Message :=
        { m0 with metadata := merge_metadata m0.metadata request.message.metadata }
      let md : List (String × String) := m1.metadata.getD []
      let md1 : List (String × String) :=
        match dlookup md "message_id" with
        | some v => setItem md "last_message_id" v
        | none => md
      let md2 : List (String × String) := setItem md1 "message_id" freshMessageId
      { r1 with status := { r1.status with message := some { m1 with metadata := some md2 } } }

/-- The metadata dict of a task's status message (empty when absent). -/
def statusMessageMeta (t : Task) : List (String × String) :=
  match t.status.message with
  | none => []
  | some m => m.metadata.getD []

/-- The status-message metadata of the response after merging the request
message's metadata into it (the state the chaining step actually inspects). -/
def mergedStatusMeta (request : TaskSendParams) (m0 : Message) :
    List (String × String) :=
  (merge_metadata m0.metadata request.message.metadata).getD []

theorem statusMessageMeta_rac_send_task (freshMessageId : String)
    (request : TaskSendParams) (result : Task) (m0 : Message)
    (hmsg : result.status.message = some m0) :
    statusMessageMeta (rac_send_task freshMessageId request result)
      = setItem
          (match dlookup (mergedStatusMeta request m0) "message_id" with
           | some v => setItem (mergedStatusMeta request m0) "last_message_id" v
           | none => mergedStatusMeta request m0)
          "message_id" freshMessageId := by
  obtain ⟨tid, tsid, tstatus, tarts, thist, tmd⟩ := result
  obtain ⟨tstate, tmsg⟩ := tstatus
  simp only [Task.status, TaskStatus.message] at hmsg
  subst hmsg
  simp [rac_send_task, statusMessageMeta, mergedStatusMeta]

/-- Counterexample to claim C5 as stated: the response's status message
carries `message_id = m1`, but because the request message's metadata (which
itself carries a `message_id`) is merged in first with source-wins, the
chaining step stores the request's id, not `m1`, under `last_message_id`. -/
def cexReq5 : TaskSendParams :=
  { id := "t1", sessionId := "s1",
    message := { role := "user", parts := [Part.text "hi"],
                 metadata := some [("message_id", "m2")] },
    acceptedOutputModes := ["text"], pushNotification := none,
    historyLength := none, metadata := none }

/-- Concrete response task for the claim C5 counterexample. -/
def cexResp5 : Task :=
  { id := "t1", sessionId := "s1",
    status := { state := TaskState.completed,
                message := some { role := "agent", parts := [Part.text "ok"],
                                  metadata := some [("message_id", "m1")] } },
    artifacts := none, history := none, metadata := none }

/-- Claim C5 is false as stated: at `cexResp5` (status-message metadata
contains `message_id = "m1"`) processed with request `cexReq5` and fresh id
`"f1"`, the final metadata maps `last_message_id` to `"m2"` (the request's
message id, which won the merge), not to `"m1"`. -/
theorem rac_send_task_last_message_id_cex :
    dlookup (statusMessageMeta cexResp5) "message_id" = some "m1"
    ∧ dlookup (statusMessageMeta (rac_send_task "f1" cexReq5 cexResp5))
        "last_message_id" = some "m2"
    ∧ dlookup (statusMessageMeta (rac_send_task "f1" cexReq5 cexResp5))
        "last_message_id" ≠ some "m1" := by
  refine ⟨by decide, by decide, by decide⟩

/-- Claim C5 (amended): after `RemoteAgentConnections.send_task`, the
message-id chain is computed against the status-message metadata as it
stands after merging the request message's metadata (source-wins): if that
merged metadata contains `message_id = m1`, the final metadata maps
`last_message_id` to `m1` and `message_id` to the freshly generated id,
distinct from `m1`; if the merged metadata has no `message_id`, only the
fresh `message_id` is assigned and `last_message_id` is left untouched
(in particular no such key is added). -/
theorem rac_send_task_message_id_chain (freshId : String)
    (request : TaskSendParams) (result : Task) (m0 : Message)
    (hmsg : result.status.message = some m0)
    (hfresh : dlookup (mergedStatusMeta request m0) "message_id" ≠ some freshId) :
    (∀ m1, dlookup (mergedStatusMeta request m0) "message_id" = some m1 →
        dlookup (statusMessageMeta (rac_send_task freshId request result))
            "last_message_id" = some m1
        ∧ dlookup (statusMessageMeta (rac_send_task freshId request result))
            "message_id" = some freshId
        ∧ freshId ≠ m1)
    ∧ (dlookup (mergedStatusMeta request m0) "message_id" = none →
        dlookup (statusMessageMeta (rac_send_task freshId request result))
            "last_message_id"
          = dlookup (mergedStatusMeta request m0) "last_message_id"
        ∧ dlookup (statusMessageMeta (rac_send_task freshId request result))
            "message_id" = some freshId) := by
  rw [statusMessageMeta_rac_send_task freshId request result m0 hmsg] at *
  constructor
  · intro m1 hm1
    rw [hm1] at hfresh ⊢
    have hne : ("last_message_id" : String) ≠ "message_id" := by decide
    refine ⟨?_, ?_, ?_⟩
    · simp [dlookup_setItem, hne]
    · simp [dlookup_setItem]
    · intro he
      exact hfresh (by rw [he])
  · intro hnone
    rw [hnone]
    have hne : ("last_message_id" : String) ≠ "message_id" := by decide
    exact ⟨by simp [dlookup_setItem, hne], by simp [dlookup_setItem]⟩

/-- The status message of `cexResp5`, named for reuse. -/
def respMsg5 : Message :=
  { role := "agent", parts := [Part.text "ok"],
    metadata := some [("message_id", "m1")] }

/-- A request like `cexReq5` but whose message carries no metadata. -/
def plainReq5 : TaskSendParams :=
  { cexReq5 with
    message := { role := "user", parts := [Part.text "hi"], metadata := none } }

/-- Witness for the amended claim C5 at a concrete response whose merged
status-message metadata carries `message_id = "m1"`. -/
theorem rac_send_task_message_id_chain_witness :
    (cexResp5.status.message = some respMsg5
    ∧ dlookup (mergedStatusMeta plainReq5 respMsg5) "message_id" ≠ some "f1")
    ∧ dlookup (statusMessageMeta (rac_send_task "f1" plainReq5 cexResp5))
        "last_message_id" = some "m1" := by
  refine ⟨⟨by decide, by decide⟩, ?_⟩
  have h := rac_send_task_message_id_chain "f1" plainReq5 cexResp5 respMsg5
    (by decide) (by decide)
  exact (h.1 "m1" (by decide)).1

/-- Python `str.split()` with no argument, over the character list: split on
runs of whitespace, discarding empty chunks; `acc` holds the current chunk
reversed. -/
def pysplitAux : List Char → List Char → List (List Char)
  | acc, [] => if acc.isEmpty then [] else [acc.reverse]
  | acc, c :: rest =>
      if c.isWhitespace then
        if acc.isEmpty then pysplitAux [] rest
        else acc.reverse :: pysplitAux [] rest
      else pysplitAux (c :: acc) rest

/-- Python `header.split()`. -/
def pysplit (s : String) : List (List Char) :=
  pysplitAux [] s.data

/-- Python `str.lower()` (ASCII-adequate, character-wise). -/
def pylower (s : List Char) : List Char :=
  s.map Char.toLower

theorem pysplitAux_word (w : List Char) (hw : ∀ c ∈ w, ¬ c.isWhitespace) :
    ∀ acc rest, pysplitAux acc (w ++ rest) = pysplitAux (w.reverse ++ acc) rest := by
  induction w with
  | nil => intro acc rest; simp
  | cons c tl ih =>
      intro acc rest
      have hc : c.isWhitespace = false := by simpa using hw c (by simp)
      have htl : ∀ x ∈ tl, ¬ x.isWhitespace := fun x hx => hw x (by simp [hx])
      rw [List.cons_append]
      have step : pysplitAux acc (c :: (tl ++ rest)) = pysplitAux (c :: acc) (tl ++ rest) := by
        simp [pysplitAux, hc]
      rw [step, ih htl (c :: acc) rest]
      simp

theorem pysplitAux_word_nil (w : List Char) (hw : ∀ c ∈ w, ¬ c.isWhitespace)
    (hne : w ≠ []) : pysplitAux [] w = [w] := by
  have h := pysplitAux_word w hw [] []
  simp only [List.append_nil] at h
  rw [h]
  have hr : w.reverse ≠ [] := by simpa [List.reverse_eq_nil_iff] using hne
  simp [pysplitAux, List.isEmpty_iff, hr]

/-- Splitting a header made of two whitespace-free words joined by one
space gives exactly those two words. -/
theorem pysplit_two_words (w1 w2 : List Char)
    (h1 : w1 ≠ []) (h1w : ∀ c ∈ w1, ¬ c.isWhitespace)
    (h2 : w2 ≠ []) (h2w : ∀ c ∈ w2, ¬ c.isWhitespace) :
    pysplitAux [] (w1 ++ ' ' :: w2) = [w1, w2] := by
  have h := pysplitAux_word w1 h1w [] (' ' :: w2)
  simp only [List.append_nil] at h
  have hsp : (' ' : Char).isWhitespace = true := by decide
  cases hrev : w1.reverse with
  | nil =>
      have hw1 : w1 = [] := by simpa [List.reverse_eq_nil_iff] using hrev
      exact absurd hw1 h1
  | cons a as =>
      rw [h, hrev]
      have step : pysplitAux (a :: as) (' ' :: w2)
          = (a :: as).reverse :: pysplitAux [] w2 := by
        simp [pysplitAux, hsp]
      rw [step, pysplitAux_word_nil w2 h2w h2]
      have hrw : (a :: as).reverse = w1 := by
        have h2rev := congrArg List.reverse hrev
        simpa using h2rev.symm
      rw [hrw]

/-- The standard base64 alphabet. -/
def b64chars : List Char :=
  "ABCDEFGHIJKLMNOPQRSTUVWXYZabcdefghijklmnopqrstuvwxyz0123456789+/".toList

/-- The alphabet character for a 6-bit value. -/
def b64enc6 (n : Nat) : Char :=
  b64chars.getD n 'A'

/-- Index of a character in the base64 alphabet. -/
def b64valAux (c : Char) : List Char → Nat → Option Nat
  | [], _ => none
  | d :: rest, i => if d = c then some i else b64valAux c rest (i + 1)

/-- The 6-bit value of an alphabet character, `none` outside the alphabet. -/
def b64val (c : Char) : Option Nat :=
  b64valAux c b64chars 0

/-- Standard base64 encoding of a byte list (as Python `base64.b64encode`). -/
def b64encodeBytes : List Nat → List Char
  | [] => []
  | [a] => [b64enc6 (a / 4), b64enc6 (a % 4 * 16), '=', '=']
  | [a, b] => [b64enc6 (a / 4), b64enc6 (a % 4 * 16 + b / 16), b64enc6 (b % 16 * 4), '=']
  | a :: b :: c :: rest =>
      b64enc6 (a / 4) :: b64enc6 (a % 4 * 16 + b / 16)
        :: b64enc6 (b % 16 * 4 + c / 64) :: b64enc6 (c % 64) :: b64encodeBytes rest

/-- Base64 decoding of a character list to bytes, as Python
`base64.b64decode` behaves on whitespace-free standard-alphabet input:
quads of alphabet characters, with `=`-padding allowed only at the very
end and surplus bits of a final partial group ignored; anything else is an
error (`none`). -/
def b64decodeBytes : List Char → Option (List Nat)
  | [] => some []
  | a :: b :: c :: d :: rest =>
      match b64val a, b64val b with
      | some v1, some v2 =>
          if c = '=' then
            if d = '=' ∧ rest = [] then some [v1 * 4 + v2 / 16] else none
          else
            match b64val c with
            | some v3 =>
                if d = '=' then
                  if rest = [] then some [v1 * 4 + v2 / 16, v2 % 16 * 16 + v3 / 4]
                  else none
                else
                  match b64val d with
                  | some v4 =>
                      match b64decodeBytes rest with
                      | some bs =>
                          some ((v1 * 4 + v2 / 16) :: (v2 % 16 * 16 + v3 / 4)
                            :: (v3 % 4 * 64 + v4) :: bs)
                      | none => none
                  | none => none
            | none => none
      | _, _ => none
  | _ => none

/-- Python `base64.b64encode(s.encode())` for a (byte-per-char) string. -/
def b64encodeStr (s : String) : List Char :=
  b64encodeBytes (s.data.map Char.toNat)

/-- Python `base64.b64decode(c).decode()` for a (byte-per-char) string. -/
def b64decodeStr (s : List Char) : Option (List Char) :=
  (b64decodeBytes s).map (fun bs => bs.map Char.ofNat)

theorem b64val_enc6 (n : Nat) (h : n < 64) : b64val (b64enc6 n) = some n := by
  have : ∀ m : Nat, m < 64 → b64val (b64enc6 m) = some m := by decide
  exact this n h

theorem b64enc6_ne_pad (n : Nat) : b64enc6 n ≠ '=' := by
  by_cases h : n < 64
  · have : ∀ m : Nat, m < 64 → b64enc6 m ≠ '=' := by decide
    exact this n h
  · have hlen : b64chars.length = 64 := by decide
    unfold b64enc6
    rw [List.getD_eq_default]
    · decide
    · omega

theorem b64enc6_not_ws (n : Nat) : ¬ (b64enc6 n).isWhitespace := by
  by_cases h : n < 64
  · have : ∀ m : Nat, m < 64 → ¬ (b64enc6 m).isWhitespace := by decide
    exact this n h
  · have hlen : b64chars.length = 64 := by decide
    unfold b64enc6
    rw [List.getD_eq_default]
    · decide
    · omega

theorem b64decodeBytes_encodeBytes (bs : List Nat) (hb : ∀ b ∈ bs, b < 256) :
    b64decodeBytes (b64encodeBytes bs) = some bs := by
  have main : ∀ (n : Nat) (l : List Nat), l.length ≤ n → (∀ b ∈ l, b < 256) →
      b64decodeBytes (b64encodeBytes l) = some l := by
    intro n
    induction n with
    | zero =>
        intro l hlen hl
        have hnil : l = [] := List.eq_nil_of_length_eq_zero (Nat.le_zero.mp hlen)
        subst hnil
        rfl
    | succ n ih =>
        intro l hlen hl
        match l with
        | [] => rfl
        | [a] =>
            have ha : a < 256 := hl a (by simp)
            have hv1 : b64val (b64enc6 (a / 4)) = some (a / 4) :=
              b64val_enc6 _ (by omega)
            have hv2 : b64val (b64enc6 (a % 4 * 16)) = some (a % 4 * 16) :=
              b64val_enc6 _ (by omega)
            simp [b64encodeBytes, b64decodeBytes, hv1, hv2]
            omega
        | [a, b] =>
            have ha : a < 256 := hl a (by simp)
            have hbb : b < 256 := hl b (by simp)
            have hv1 : b64val (b64enc6 (a / 4)) = some (a / 4) :=
              b64val_enc6 _ (by omega)
            have hv2 : b64val (b64enc6 (a % 4 * 16 + b / 16)) = some (a % 4 * 16 + b / 16) :=
              b64val_enc6 _ (by omega)
            have hv3 : b64val (b64enc6 (b % 16 * 4)) = some (b % 16 * 4) :=
              b64val_enc6 _ (by omega)
            have hne3 : b64enc6 (b % 16 * 4) ≠ '=' := b64enc6_ne_pad _
            simp [b64encodeBytes, b64decodeBytes, hv1, hv2, hv3, hne3]
            omega
        | a :: b :: c :: rest =>
            have ha : a < 256 := hl a (by simp)
            have hbb : b < 256 := hl b (by simp)
            have hc : c < 256 := hl c (by simp)
            have hrest : ∀ x ∈ rest, x < 256 := fun x hx => hl x (by simp [hx])
            have hrlen : rest.length ≤ n := by
              simp [List.length_cons] at hlen
              omega
            have hrec := ih rest hrlen hrest
            have hv1 : b64val (b64enc6 (a / 4)) = some (a / 4) :=
              b64val_enc6 _ (by omega)
            have hv2 : b64val (b64enc6 (a % 4 * 16 + b / 16)) = some (a % 4 * 16 + b / 16) :=
              b64val_enc6 _ (by omega)
            have hv3 : b64val (b64enc6 (b % 16 * 4 + c / 64)) = some (b % 16 * 4 + c / 64) :=
              b64val_enc6 _ (by omega)
            have hv4 : b64val (b64enc6 (c % 64)) = some (c % 64) :=
              b64val_enc6 _ (by omega)
            have hne3 : b64enc6 (b % 16 * 4 + c / 64) ≠ '=' := b64enc6_ne_pad _
            have hne4 : b64enc6 (c % 64) ≠ '=' := b64enc6_ne_pad _
            simp [b64encodeBytes, b64decodeBytes, hv1, hv2, hv3, hv4, hne3, hne4, hrec]
            omega
  exact main bs.length bs le_rfl hb

theorem b64decodeStr_encodeStr (s : String) (h : ∀ c ∈ s.data, c.toNat < 256) :
    b64decodeStr (b64encodeStr s) = some s.data := by
  unfold b64decodeStr b64encodeStr
  rw [b64decodeBytes_encodeBytes (s.data.map Char.toNat)
    (by intro b hbm; obtain ⟨c, hc, rfl⟩ := List.mem_map.mp hbm; exact h c hc)]
  have hfun : (fun c : Char => Char.ofNat c.toNat) = fun c => c :=
    funext fun c => Char.ofNat_toNat c
  simp [List.map_map, Function.comp_def, hfun]

theorem b64encodeBytes_not_ws (bs : List Nat) :
    ∀ ch ∈ b64encodeBytes bs, ¬ ch.isWhitespace := by
  have hpad : ¬ ('=' : Char).isWhitespace := by decide
  have main : ∀ (n : Nat) (l : List Nat), l.length ≤ n →
      ∀ ch ∈ b64encodeBytes l, ¬ ch.isWhitespace := by
    intro n
    induction n with
    | zero =>
        intro l hlen ch hch
        have hnil : l = [] := List.eq_nil_of_length_eq_zero (Nat.le_zero.mp hlen)
        subst hnil
        simp [b64encodeBytes] at hch
    | succ n ih =>
        intro l hlen ch hch
        match l with
        | [] => simp [b64encodeBytes] at hch
        | [a] =>
            simp only [b64encodeBytes, List.mem_cons, List.not_mem_nil,
              or_false] at hch
            rcases hch with h | h | h | h <;> subst h <;>
              first | exact b64enc6_not_ws _ | exact hpad
        | [a, b] =>
            simp only [b64encodeBytes, List.mem_cons, List.not_mem_nil,
              or_false] at hch
            rcases hch with h | h | h | h <;> subst h <;>
              first | exact b64enc6_not_ws _ | exact hpad
        | a :: b :: c :: rest =>
            have hrlen : rest.length ≤ n := by
              simp [List.length_cons] at hlen
              omega
            simp only [b64encodeBytes, List.mem_cons] at hch
            rcases hch with h | h | h | h | h
            · subst h; exact b64enc6_not_ws _
            · subst h; exact b64enc6_not_ws _
            · subst h; exact b64enc6_not_ws _
            · subst h; exact b64enc6_not_ws _
            · exact ih rest hrlen ch h
  exact main bs.length bs le_rfl

theorem b64encodeBytes_ne_nil (bs : List Nat) (h : bs ≠ []) :
    b64encodeBytes bs ≠ [] := by
  match bs with
  | [] => exact absurd rfl h
  | [a] => simp [b64encodeBytes]
  | [a, b] => simp [b64encodeBytes]
  | a :: b :: c :: rest => simp [b64encodeBytes]

/-- Python `decoded.split(":", 1)` when a colon is present: the part before
the first colon and everything after it; `none` when there is no colon
(where the Python tuple unpacking raises, caught by the handler). -/
def splitFirstColon : List Char → Option (List Char × List Char)
  | [] => none
  | c :: rest =>
      if c = ':' then some ([], rest)
      else (splitFirstColon rest).map (fun pr => (c :: pr.1, pr.2))

theorem splitFirstColon_append (u p : List Char) (hu : ':' ∉ u) :
    splitFirstColon (u ++ ':' :: p) = some (u, p) := by
  induction u with
  | nil => simp [splitFirstColon]
  | cons c tl ih =>
      have hc : ¬ c = ':' := fun he => hu (by simp [he])
      have htl : ':' ∉ tl := fun hm => hu (by simp [hm])
      simp [splitFirstColon, hc, ih htl]

/-- The authentication-relevant state of `A2AServer` from
remote_seller_agents/pizza_agent/a2a_server/server.py after construction. -/
structure A2AServer where
  auth_scheme : String
  api_key : Option String
  auth_username : Option String
  auth_password : Option String
deriving DecidableEq, Repr

/-- Python falsiness of an optional string: `None` and `""` are falsy. -/
def strFalsy : Option String → Bool
  | none => true
  | some s => s.data.isEmpty

/-- The scheme dispatch of `A2AServer.verify_auth_header` once the header has
been split into an (already lowercased) scheme word and a credential word:
bearer compares the token (skipping the check entirely when the configured
key is falsy), basic base64-decodes the credential, splits at the first
colon and compares both parts (skipping when either configured credential
is falsy); any other combination is a scheme mismatch. -/
def auth_dispatch (srv : A2AServer) (auth_type cred : List Char) :
    Bool × Option String :=
  if srv.auth_scheme = "bearer" ∧ auth_type = "bearer".data then
    if strFalsy srv.api_key then (true, none)
    else if cred = (srv.api_key.getD "").data then (true, none)
    else (false, some "Invalid bearer token")
  else if srv.auth_scheme = "basic" ∧ auth_type = "basic".data then
    if strFalsy srv.auth_username || strFalsy srv.auth_password then (true, none)
    else
      match b64decodeStr cred with
      | none => (false, some "Invalid basic auth format")
      | some dec =>
          match splitFirstColon dec with
          | none => (false, some "Invalid basic auth format")
          | some (username, password) =>
              if username = (srv.auth_username.getD "").data
                  ∧ password = (srv.auth_password.getD "").data then (true, none)
              else (false, some "Invalid credentials")
  else (false, some "Authentication scheme mismatch")

/-- Embedding of `A2AServer.verify_auth_header`: a missing or empty header is
rejected, a header that does not split into exactly two words is rejected,
otherwise the scheme word is lowercased and dispatched. -/
def verify_auth_header (srv : A2AServer) (header : Option String) :
    Bool × Option String :=
  match header with
  | none => (false, some "Authorization header is missing")
  | some h =>
      if h.data.isEmpty then (false, some "Authorization header is missing")
      else
        match pysplit h with
        | [t, cred] => auth_dispatch srv (pylower t) cred
        | _ => (false, some "Invalid Authorization header format")

/-- Outcome of `A2AServer._process_request`: either an HTTP 401 rejection
issued before the dispatcher runs, or the dispatcher's own result. -/
inductive HttpResult (δ : Type u) where
  | unauthorized (code : Nat) (msg : String)
  | ok (d : δ)
deriving DecidableEq, Repr

/-- Embedding of the authentication gate of `A2AServer._process_request`:
the dispatcher outcome is an arbitrary parameter, returned only when
`verify_auth_header` accepts; otherwise a 401 response with the error
message. -/
def process_request {δ : Type u} (srv : A2AServer) (header : Option String)
    (dispatched : δ) : HttpResult δ :=
  let vr := verify_auth_header srv header
  if vr.1 then HttpResult.ok dispatched else HttpResult.unauthorized 401 (vr.2.getD "")

/-- Embedding of `A2AServer.__init__` from
remote_seller_agents/pizza_agent/a2a_server/server.py, restricted to its
authentication configuration: more than one declared scheme is a
ValueError; zero schemes crash on the `schemes[0]` access (an IndexError,
modelled as an error result); a bearer scheme requires `api_key` to be not
`None`; a basic scheme requires both `auth_username` and `auth_password` to
be not `None`; any other scheme name is unsupported. -/
def a2aserver_init (schemes : List String)
    (api_key auth_username auth_password : Option String) :
    Except String A2AServer :=
  if schemes.length > 1 then
    Except.error "Only one authentication scheme is supported for now"
  else
    match schemes.head? with
    | none => Except.error "IndexError: list index out of range"
    | some s0 =>
        if pylower s0.data = ("bearer" : String).data then
          if api_key = none then
            Except.error "Authentication scheme is bearer but api_key is not defined"
          else
            Except.ok { auth_scheme := "bearer", api_key := api_key,
                        auth_username := auth_username, auth_password := auth_password }
        else if pylower s0.data = ("basic" : String).data then
          if auth_username = none ∨ auth_password = none then
            Except.error "Authentication scheme is basic but auth_username and auth_password are not defined"
          else
            Except.ok { auth_scheme := "basic", api_key := api_key,
                        auth_username := auth_username, auth_password := auth_password }
        else Except.error "Unsupported authentication scheme"

theorem verify_auth_header_token (srv : A2AServer) (s c : String)
    (hs : s.data ≠ []) (hsw : ∀ ch ∈ s.data, ¬ ch.isWhitespace)
    (hc : c.data ≠ []) (hcw : ∀ ch ∈ c.data, ¬ ch.isWhitespace) :
    verify_auth_header srv (some (s ++ " " ++ c))
      = auth_dispatch srv (pylower s.data) c.data := by
  have hsp : ((" " : String)).data = [' '] := rfl
  have hdata : (s ++ " " ++ c).data = s.data ++ ' ' :: c.data := by
    simp [String.data_append, hsp]
  have hsplit : pysplit (s ++ " " ++ c) = [s.data, c.data] := by
    unfold pysplit
    rw [hdata]
    exact pysplit_two_words s.data c.data hs hsw hc hcw
  have hne : (s ++ " " ++ c).data.isEmpty = false := by
    rw [hdata]
    cases hd : s.data with
    | nil => exact absurd hd hs
    | cons x xs => rfl
  simp [verify_auth_header, hne, hsplit]

theorem isEmpty_false_of_ne_nil {α : Type u} (l : List α) (h : l ≠ []) :
    l.isEmpty = false := by
  cases hl : l with
  | nil => exact absurd hl h
  | cons x xs => rfl

theorem auth_dispatch_bearer (t : String) (au ap : Option String)
    (ht : t.data ≠ []) (cred : List Char) :
    auth_dispatch ⟨"bearer", some t, au, ap⟩ ("bearer" : String).data cred
      = if cred = t.data then (true, none)
        else (false, some "Invalid bearer token") := by
  have ht' : t.data.isEmpty = false := isEmpty_false_of_ne_nil t.data ht
  simp [auth_dispatch, strFalsy, ht']

theorem auth_dispatch_basic (ak : Option String) (uu pp : String)
    (hu : uu.data ≠ []) (hp : pp.data ≠ []) (cred : List Char) :
    auth_dispatch ⟨"basic", ak, some uu, some pp⟩ ("basic" : String).data cred
      = match b64decodeStr cred with
        | none => (false, some "Invalid basic auth format")
        | some dec =>
            match splitFirstColon dec with
            | none => (false, some "Invalid basic auth format")
            | some (u1, p1) =>
                if u1 = uu.data ∧ p1 = pp.data then (true, none)
                else (false, some "Invalid credentials")
      := by
  have hne1 : ¬ (("basic" : String) = "bearer"
      ∧ ("basic" : String).data = ("bearer" : String).data) := by decide
  have hu' : uu.data.isEmpty = false := isEmpty_false_of_ne_nil uu.data hu
  have hp' : pp.data.isEmpty = false := isEmpty_false_of_ne_nil pp.data hp
  simp [auth_dispatch, hne1, strFalsy, hu', hp']

theorem auth_dispatch_mismatch (srv : A2AServer) (auth_type cred : List Char)
    (h1 : ¬ (srv.auth_scheme = "bearer" ∧ auth_type = ("bearer" : String).data))
    (h2 : ¬ (srv.auth_scheme = "basic" ∧ auth_type = ("basic" : String).data)) :
    auth_dispatch srv auth_type cred = (false, some "Authentication scheme mismatch") := by
  simp [auth_dispatch, h1, h2]

/-- Claim C1 (amended): for a bearer server with non-empty whitespace-free
token `t`: the header `Bearer t` is accepted; any header `Bearer w` with a
whitespace-free token `w ≠ t` is rejected with HTTP 401 before the
dispatcher runs (the header string itself is first split on whitespace
runs, which is why `w` ranges over single tokens); a missing header is a
401; a two-word header whose scheme word does not lowercase to the
configured scheme is a 401. For a basic server with non-empty credentials
`uu` (colon-free) and `pp`: the canonical header `Basic base64(uu:pp)` is
accepted, and a header `Basic c` is accepted exactly when `c`
base64-decodes to a string splitting at its first colon into `uu` and `pp`
(exact match of both). -/
theorem verify_auth_header_spec (t uu pp : String) (au ap ak : Option String)
    (ht : t.data ≠ []) (htw : ∀ ch ∈ t.data, ¬ ch.isWhitespace)
    (hu : uu.data ≠ []) (hp : pp.data ≠ [])
    (huc : ':' ∉ uu.data)
    (hub : ∀ ch ∈ uu.data, ch.toNat < 256) (hpb : ∀ ch ∈ pp.data, ch.toNat < 256) :
    (verify_auth_header ⟨"bearer", some t, au, ap⟩ (some ("Bearer " ++ t))).1 = true
    ∧ (∀ (δ : Type) (d : δ) (w : String), w.data ≠ [] →
        (∀ ch ∈ w.data, ¬ ch.isWhitespace) → w ≠ t →
        process_request ⟨"bearer", some t, au, ap⟩ (some ("Bearer " ++ w)) d
          = HttpResult.unauthorized 401 "Invalid bearer token")
    ∧ (∀ (δ : Type) (d : δ),
        process_request ⟨"bearer", some t, au, ap⟩ none d
          = HttpResult.unauthorized 401 "Authorization header is missing")
    ∧ (∀ (δ : Type) (d : δ) (s w : String), s.data ≠ [] →
        (∀ ch ∈ s.data, ¬ ch.isWhitespace) → w.data ≠ [] →
        (∀ ch ∈ w.data, ¬ ch.isWhitespace) →
        pylower s.data ≠ ("bearer" : String).data →
        process_request ⟨"bearer", some t, au, ap⟩ (some (s ++ " " ++ w)) d
          = HttpResult.unauthorized 401 "Authentication scheme mismatch")
    ∧ (verify_auth_header ⟨"basic", ak, some uu, some pp⟩
        (some ("Basic " ++ String.mk (b64encodeStr (uu ++ ":" ++ pp))))).1 = true
    ∧ (∀ c : String, c.data ≠ [] → (∀ ch ∈ c.data, ¬ ch.isWhitespace) →
        ((verify_auth_header ⟨"basic", ak, some uu, some pp⟩
            (some ("Basic " ++ c))).1 = true
          ↔ ∃ dec, b64decodeStr c.data = some dec
              ∧ splitFirstColon dec = some (uu.data, pp.data))) := by
  have hBearerLit : ("Bearer " : String) = "Bearer" ++ " " := by decide
  have hBasicLit : ("Basic " : String) = "Basic" ++ " " := by decide
  have hlowB : pylower ("Bearer" : String).data = ("bearer" : String).data := by decide
  have hlowBa : pylower ("Basic" : String).data = ("basic" : String).data := by decide
  have hBne : ("Bearer" : String).data ≠ [] := by decide
  have hBw : ∀ ch ∈ ("Bearer" : String).data, ¬ ch.isWhitespace := by decide
  have hBane : ("Basic" : String).data ≠ [] := by decide
  have hBaw : ∀ ch ∈ ("Basic" : String).data, ¬ ch.isWhitespace := by decide
  -- verification of a bearer header with an arbitrary credential token
  have hbearer : ∀ (w : String), w.data ≠ [] → (∀ ch ∈ w.data, ¬ ch.isWhitespace) →
      verify_auth_header ⟨"bearer", some t, au, ap⟩ (some ("Bearer " ++ w))
        = if w.data = t.data then (true, none)
          else (false, some "Invalid bearer token") := by
    intro w hw hww
    rw [hBearerLit,
      verify_auth_header_token ⟨"bearer", some t, au, ap⟩ "Bearer" w hBne hBw hw hww,
      hlowB, auth_dispatch_bearer t au ap ht w.data]
  -- the basic acceptance characterization, shared by the last two conjuncts
  have hbasic : ∀ (c : String), c.data ≠ [] → (∀ ch ∈ c.data, ¬ ch.isWhitespace) →
      ((verify_auth_header ⟨"basic", ak, some uu, some pp⟩
          (some ("Basic " ++ c))).1 = true
        ↔ ∃ dec, b64decodeStr c.data = some dec
            ∧ splitFirstColon dec = some (uu.data, pp.data)) := by
    intro c hc hcw
    rw [hBasicLit,
      verify_auth_header_token ⟨"basic", ak, some uu, some pp⟩ "Basic" c hBane hBaw hc hcw,
      hlowBa, auth_dispatch_basic ak uu pp hu hp c.data]
    rcases hdec : b64decodeStr c.data with _ | dec
    · simp
    · rcases hsplitc : splitFirstColon dec with _ | up
      · simp [hsplitc]
      · obtain ⟨u1, p1⟩ := up
        by_cases hcmp : u1 = uu.data ∧ p1 = pp.data
        · simp [hsplitc, hcmp]
        · simp [hsplitc]
          rw [if_neg hcmp]
          constructor
          · intro hfalse
            simp at hfalse
          · intro hcon
            exact absurd hcon hcmp
  refine ⟨?_, ?_, ?_, ?_, ?_, hbasic⟩
  · rw [hbearer t ht htw]
    simp
  · intro δ d w hw hww hwt
    have hne : w.data ≠ t.data := fun he => hwt (String.ext he)
    simp [process_request, hbearer w hw hww, hne]
  · intro δ d
    simp [process_request, verify_auth_header]
  · intro δ d s w hs hsw hw hww hslow
    have h1 : ¬ ((("bearer" : String) = "bearer")
        ∧ pylower s.data = ("bearer" : String).data) := by
      intro hcon
      exact hslow hcon.2
    have h2 : ¬ ((("bearer" : String) = "basic")
        ∧ pylower s.data = ("basic" : String).data) := by
      intro hcon
      exact absurd hcon.1 (by decide)
    rw [show (some (s ++ " " ++ w)) = some (s ++ " " ++ w) from rfl]
    have hver := verify_auth_header_token ⟨"bearer", some t, au, ap⟩ s w hs hsw hw hww
    rw [process_request, hver,
      auth_dispatch_mismatch ⟨"bearer", some t, au, ap⟩ (pylower s.data) w.data h1 h2]
    rfl
  · -- canonical basic header is accepted
    set enc := b64encodeStr (uu ++ ":" ++ pp) with henc
    have hcolon : ((":" : String)).data = [':'] := rfl
    have hdata3 : (uu ++ ":" ++ pp).data = uu.data ++ ':' :: pp.data := by
      simp [String.data_append, hcolon]
    have hdne : (uu ++ ":" ++ pp).data ≠ [] := by
      rw [hdata3]
      intro h
      exact hu (List.append_eq_nil.mp h).1
    have hencne : enc ≠ [] := by
      rw [henc]
      unfold b64encodeStr
      refine b64encodeBytes_ne_nil _ ?_
      simp [hdne]
    have hencw : ∀ ch ∈ enc, ¬ ch.isWhitespace := by
      rw [henc]
      unfold b64encodeStr
      exact b64encodeBytes_not_ws _
    have hbound : ∀ ch ∈ (uu ++ ":" ++ pp).data, ch.toNat < 256 := by
      rw [hdata3]
      intro ch hch
      rcases List.mem_append.mp hch with h | h
      · exact hub ch h
      · rcases List.mem_cons.mp h with h | h
        · subst h; decide
        · exact hpb ch h
    have hdec : b64decodeStr enc = some ((uu ++ ":" ++ pp).data) := by
      rw [henc]
      exact b64decodeStr_encodeStr (uu ++ ":" ++ pp) hbound
    have hmkdata : (String.mk enc).data = enc := rfl
    refine (hbasic (String.mk enc) (by rw [hmkdata]; exact hencne)
      (by rw [hmkdata]; exact hencw)).mpr ?_
    refine ⟨(uu ++ ":" ++ pp).data, by rw [hmkdata]; exact hdec, ?_⟩
    rw [hdata3]
    exact splitFirstColon_append uu.data pp.data huc

/-- Claim C1 is false as stated: with bearer token `secret123`, the header
`Bearer  secret123` (two spaces) has the form `Bearer w` for
`w = " secret123" ≠ "secret123"`, yet it is accepted, because the header is
split on whitespace runs before the token comparison. -/
theorem verify_auth_header_exact_match_cex :
    ("Bearer " ++ " secret123" : String) = "Bearer  secret123"
    ∧ (" secret123" : String) ≠ "secret123"
    ∧ (verify_auth_header ⟨"bearer", some "secret123", none, none⟩
        (some "Bearer  secret123")).1 = true :=
  ⟨by decide, by decide, by decide⟩

/-- Witness for the amended claim C1 at concrete credentials. -/
theorem verify_auth_header_spec_witness :
    (("secret123" : String).data ≠ [] ∧ ':' ∉ ("user" : String).data)
    ∧ (verify_auth_header ⟨"bearer", some "secret123", none, none⟩
        (some ("Bearer " ++ "secret123"))).1 = true
    ∧ process_request ⟨"bearer", some "secret123", none, none⟩
        (some ("Bearer " ++ "wrong")) (0 : Nat)
        = HttpResult.unauthorized 401 "Invalid bearer token"
    ∧ process_request ⟨"bearer", some "secret123", none, none⟩ none (0 : Nat)
        = HttpResult.unauthorized 401 "Authorization header is missing"
    ∧ (verify_auth_header ⟨"basic", none, some "user", some "pass"⟩
        (some ("Basic " ++ String.mk (b64encodeStr ("user" ++ ":" ++ "pass"))))).1
        = true := by
  have h := verify_auth_header_spec "secret123" "user" "pass" none none none
    (by decide) (by decide) (by decide) (by decide) (by decide) (by decide) (by decide)
  refine ⟨⟨by decide, by decide⟩, h.1, ?_, h.2.2.1 Nat 0, h.2.2.2.2.1⟩
  exact h.2.1 Nat 0 "wrong" (by decide) (by decide) (by decide)

/-- Claim C10: with the bearer scheme and the empty string as API token,
construction succeeds (only `None` counts as an absent credential) and
`verify_auth_header` then accepts every header `Bearer w` for any
(whitespace-free, non-empty) token `w`, without comparing it. -/
theorem bearer_empty_token_bypass (au ap : Option String) :
    a2aserver_init ["bearer"] (some "") au ap
      = Except.ok ⟨"bearer", some "", au, ap⟩
    ∧ (∀ w : String, w.data ≠ [] → (∀ ch ∈ w.data, ¬ ch.isWhitespace) →
        (verify_auth_header ⟨"bearer", some "", au, ap⟩
          (some ("Bearer " ++ w))).1 = true) := by
  constructor
  · rfl
  · intro w hw hww
    have hdisp : auth_dispatch ⟨"bearer", some "", au, ap⟩
        ("bearer" : String).data w.data = (true, none) := by
      simp [auth_dispatch, strFalsy]
    rw [show ("Bearer " : String) = "Bearer" ++ " " from by decide,
      verify_auth_header_token ⟨"bearer", some "", au, ap⟩ "Bearer" w
        (by decide) (by decide) hw hww,
      show pylower ("Bearer" : String).data = ("bearer" : String).data from by decide,
      hdisp]

/-- Witness for claim C10 at a concrete arbitrary token. -/
theorem bearer_empty_token_bypass_witness :
    a2aserver_init ["bearer"] (some "") none none
      = Except.ok ⟨"bearer", some "", none, none⟩
    ∧ (verify_auth_header ⟨"bearer", some "", none, none⟩
        (some ("Bearer " ++ "anything"))).1 = true := by
  have h := bearer_empty_token_bypass none none
  exact ⟨h.1, h.2 "anything" (by decide) (by decide)⟩

/-- Whether a modelled constructor run succeeded. -/
def exceptIsOk {ε α : Type u} : Except ε α → Bool
  | Except.ok _ => true
  | Except.error _ => false

/-- Claim C8: `A2AServer` construction fails for zero declared schemes (the
`schemes[0]` access raises), for more than one scheme, for a bearer scheme
with `api_key = None`, for a basic scheme missing either credential, and
for an unsupported scheme name; it succeeds for exactly one supported
scheme with its credential present. -/
theorem a2aserver_init_spec (schemes : List String) (ak au ap : Option String) :
    (schemes = [] → exceptIsOk (a2aserver_init schemes ak au ap) = false)
    ∧ (schemes.length > 1 → exceptIsOk (a2aserver_init schemes ak au ap) = false)
    ∧ (∀ s, schemes = [s] → pylower s.data = ("bearer" : String).data → ak = none →
        exceptIsOk (a2aserver_init schemes ak au ap) = false)
    ∧ (∀ s, schemes = [s] → pylower s.data = ("basic" : String).data →
        (au = none ∨ ap = none) →
        exceptIsOk (a2aserver_init schemes ak au ap) = false)
    ∧ (∀ s, schemes = [s] → pylower s.data ≠ ("bearer" : String).data →
        pylower s.data ≠ ("basic" : String).data →
        exceptIsOk (a2aserver_init schemes ak au ap) = false)
    ∧ (∀ s, schemes = [s] → pylower s.data = ("bearer" : String).data → ak ≠ none →
        a2aserver_init schemes ak au ap = Except.ok ⟨"bearer", ak, au, ap⟩)
    ∧ (∀ s, schemes = [s] → pylower s.data = ("basic" : String).data →
        au ≠ none → ap ≠ none →
        a2aserver_init schemes ak au ap = Except.ok ⟨"basic", ak, au, ap⟩) := by
  refine ⟨?_, ?_, ?_, ?_, ?_, ?_, ?_⟩
  · intro h
    subst h
    rfl
  · intro h
    unfold a2aserver_init
    rw [if_pos h]
    rfl
  · intro s hs hlow hak
    subst hs
    simp [a2aserver_init, hlow, hak, exceptIsOk]
  · intro s hs hlow hcred
    subst hs
    have hnb : ¬ (pylower s.data = ("bearer" : String).data) := by
      rw [hlow]; decide
    rcases hcred with h | h <;>
      simp [a2aserver_init, hlow, hnb, h, exceptIsOk]
  · intro s hs h1 h2
    subst hs
    simp [a2aserver_init, h1, h2, exceptIsOk]
  · intro s hs hlow hak
    subst hs
    simp [a2aserver_init, hlow, hak, exceptIsOk]
  · intro s hs hlow hau hap
    subst hs
    have hnb : ¬ (pylower s.data = ("bearer" : String).data) := by
      rw [hlow]; decide
    simp [a2aserver_init, hlow, hnb, hau, hap, exceptIsOk]

/-- Witness for claim C8 at concrete scheme lists and credentials. -/
theorem a2aserver_init_spec_witness :
    exceptIsOk (a2aserver_init [] (some "k") none none) = false
    ∧ exceptIsOk (a2aserver_init ["bearer", "basic"] (some "k") (some "u") (some "p"))
        = false
    ∧ exceptIsOk (a2aserver_init ["bearer"] none none none) = false
    ∧ exceptIsOk (a2aserver_init ["basic"] none (some "u") none) = false
    ∧ a2aserver_init ["bearer"] (some "k") none none
        = Except.ok ⟨"bearer", some "k", none, none⟩
    ∧ a2aserver_init ["basic"] none (some "u") (some "p")
        = Except.ok ⟨"basic", none, some "u", some "p"⟩ := by
  refine ⟨(a2aserver_init_spec [] (some "k") none none).1 rfl,
    (a2aserver_init_spec ["bearer", "basic"] (some "k") (some "u") (some "p")).2.1
      (by decide),
    (a2aserver_init_spec ["bearer"] none none none).2.2.1 "bearer" rfl (by decide) rfl,
    (a2aserver_init_spec ["basic"] none (some "u") none).2.2.2.1 "basic" rfl
      (by decide) (Or.inr rfl),
    (a2aserver_init_spec ["bearer"] (some "k") none none).2.2.2.2.2.1 "bearer" rfl
      (by decide) (by decide),
    (a2aserver_init_spec ["basic"] none (some "u") (some "p")).2.2.2.2.2.2 "basic" rfl
      (by decide) (by decide) (by decide)⟩

/-- The orchestrator session state held in the ADK tool context
(`tool_context.state`); absent keys are `none`. -/
structure OrchState where
  session_id : Option String
  session_active : Option Bool
  active_agent : Option String
  task_id : Option String
  input_message_metadata : Option (List (String × String))
deriving DecidableEq, Repr

/-- Everything observable about one `PurchasingAgent.send_task` call: the
state after the call, the escalation flag, the request given to the remote
client (none when the call raised before sending), and the returned value
or the raised error. -/
structure SendOutcome where
  state : OrchState
  escalate : Bool
  sentRequest : Option TaskSendParams
  result : Except String (List String)
deriving Repr

/-- Embedding of `convert_part` from purchasing_concierge/purchasing_agent.py:
a text part yields its text, any other part type tag yields
`Unknown type: <tag>`. -/
def convert_part (p : Part) : String :=
  match p with
  | Part.text t => t
  | Part.other tag => "Unknown type: " ++ tag

/-- Embedding of `convert_parts`. -/
def convert_parts (ps : List Part) : List String :=
  ps.map convert_part

/-- The response list built at the end of `PurchasingAgent.send_task`: the
status-message parts (when a message is present) followed by the parts of
every artifact, each converted. -/
def taskResponseTexts (task : Task) : List String :=
  (match task.status.message with
   | none => []
   | some m => convert_parts m.parts)
  ++ (match task.artifacts with
      | none => []
      | some arts => (arts.map (fun a => convert_parts a.parts)).flatten)

/-- The flat part sequence a response exposes: status-message parts then
every artifact's parts, in order. -/
def allParts (task : Task) : List Part :=
  (match task.status.message with
   | none => []
   | some m => m.parts)
  ++ (match task.artifacts with
      | none => []
      | some arts => (arts.map Artifact.parts).flatten)

/-- The terminal states checked by the orchestrator. -/
def orchTerminalStates : List TaskState :=
  [TaskState.completed, TaskState.canceled, TaskState.failed, TaskState.unknown]

/-- Embedding of `PurchasingAgent.send_task` from
purchasing_concierge/purchasing_agent.py. The routing table is the set of
connected remote names; the two possible `uuid.uuid4()` draws are the
`freshTaskId` and `freshMessageId` parameters; the remote round trip is
abstracted by the `respTask` parameter (the task value
`client.send_task` returns). Raising is modelled as an error result
carrying the state as already mutated at the raise point. -/
def orch_send_task (table : List String) (agent_name task_text : String)
    (freshTaskId freshMessageId : String) (respTask : Task)
    (st : OrchState) (esc0 : Bool) : SendOutcome :=
  if agent_name ∉ table then
    { state := st, escalate := esc0, sentRequest := none,
      result := Except.error ("Agent " ++ agent_name ++ " not found") }
  else
    let st1 := { st with active_agent := some agent_name }
    let taskId := match st.task_id with
      | some tid => tid
      | none => freshTaskId
    match st1.session_id with
    | none =>
        { state := st1, escalate := esc0, sentRequest := none,
          result := Except.error "KeyError: session_id" }
    | some sessionId =>
        let mid0 := match st1.input_message_metadata with
          | some md => (dlookup md "message_id").getD ""
          | none => ""
        let messageId := if mid0 = "" then freshMessageId else mid0
        let md0 : List (String × String) := match st1.input_message_metadata with
          | some md => dictUpdate [] md
          | none => []
        let md1 := dictUpdate md0
          [("conversation_id", sessionId), ("message_id", messageId)]
        let request : TaskSendParams :=
          { id := taskId, sessionId := sessionId,
            message := { role := "user", parts := [Part.text task_text],
                         metadata := some md1 },
            acceptedOutputModes := ["text", "text/plain"],
            pushNotification := none, historyLength := none,
            metadata := some [("conversation_id", sessionId)] }
        let st2 := { st1 with
          session_active := some (decide (respTask.status.state ∉ orchTerminalStates)) }
        let stepEsc : Bool × OrchState :=
          if respTask.status.state = TaskState.input_required then
            (true, st2)
          else if respTask.status.state = TaskState.completed then
            (esc0, { st2 with active_agent := some "None" })
          else (esc0, st2)
        { state := stepEsc.2, escalate := stepEsc.1, sentRequest := some request,
          result := Except.ok (taskResponseTexts respTask) }

theorem orch_send_task_success_shape (table : List String)
    (agent_name task_text fTid fMid : String) (respTask : Task)
    (st : OrchState) (esc0 : Bool) (sid : String)
    (hmem : agent_name ∈ table) (hsid : st.session_id = some sid) :
    (orch_send_task table agent_name task_text fTid fMid respTask st esc0).state
      = { st with
          active_agent := if respTask.status.state = TaskState.completed
            then some "None" else some agent_name,
          session_active := some (decide (respTask.status.state ∉ orchTerminalStates)) }
    ∧ (orch_send_task table agent_name task_text fTid fMid respTask st esc0).escalate
      = (if respTask.status.state = TaskState.input_required then true else esc0)
    ∧ (orch_send_task table agent_name task_text fTid fMid respTask st esc0).result
      = Except.ok (taskResponseTexts respTask)
    ∧ (orch_send_task table agent_name task_text fTid fMid respTask st
        esc0).sentRequest.map TaskSendParams.id
      = some (match st.task_id with | some tid => tid | none => fTid) := by
  have hnmem : ¬ agent_name ∉ table := fun h => h hmem
  by_cases hir : respTask.status.state = TaskState.input_required
  · have hnc : ¬ respTask.status.state = TaskState.completed := by
      rw [hir]; decide
    refine ⟨?_, ?_, ?_, ?_⟩ <;>
      simp [orch_send_task, hnmem, hsid, hir, hnc]
  · by_cases hc : respTask.status.state = TaskState.completed
    · refine ⟨?_, ?_, ?_, ?_⟩ <;>
        simp [orch_send_task, hnmem, hsid, hir, hc]
    · refine ⟨?_, ?_, ?_, ?_⟩ <;>
        simp [orch_send_task, hnmem, hsid, hir, hc]

/-- Claim C6: after a successful `send_task` call, `session_active` is true
exactly when the resulting task state is outside the terminal set
(COMPLETED, CANCELED, FAILED, UNKNOWN); on COMPLETED the active agent is
reset to the unset sentinel "None"; on INPUT_REQUIRED it remains the
called agent's name. -/
theorem orch_send_task_session_flags (table : List String)
    (agent_name task_text fTid fMid : String) (respTask : Task)
    (st : OrchState) (esc0 : Bool) (sid : String)
    (hmem : agent_name ∈ table) (hsid : st.session_id = some sid) :
    ((orch_send_task table agent_name task_text fTid fMid respTask st
        esc0).state.session_active = some true
      ↔ respTask.status.state ∉ orchTerminalStates)
    ∧ (respTask.status.state = TaskState.completed →
        (orch_send_task table agent_name task_text fTid fMid respTask st
          esc0).state.active_agent = some "None")
    ∧ (respTask.status.state = TaskState.input_required →
        (orch_send_task table agent_name task_text fTid fMid respTask st
          esc0).state.active_agent = some agent_name) := by
  obtain ⟨hstate, hesc, hres, hreq⟩ :=
    orch_send_task_success_shape table agent_name task_text fTid fMid respTask
      st esc0 sid hmem hsid
  refine ⟨?_, ?_, ?_⟩
  · rw [hstate]
    simp
  · intro hc
    rw [hstate]
    simp [hc]
  · intro hir
    have hnc : ¬ respTask.status.state = TaskState.completed := by
      rw [hir]; decide
    rw [hstate]
    simp [hnc]

/-- Witness for claim C6 at a concrete session and responses. -/
theorem orch_send_task_session_flags_witness :
    (("burger_seller_agent" : String) ∈ ["burger_seller_agent"]
      ∧ (OrchState.mk (some "s") (some true) none none none).session_id = some "s")
    ∧ ((orch_send_task ["burger_seller_agent"] "burger_seller_agent" "order" "t1" "m1"
        (Task.mk "t1" "s" (TaskStatus.mk TaskState.input_required none) none none none)
        (OrchState.mk (some "s") (some true) none none none) false).state.session_active
          = some true
      ↔ TaskState.input_required ∉ orchTerminalStates)
    ∧ (orch_send_task ["burger_seller_agent"] "burger_seller_agent" "order" "t1" "m1"
        (Task.mk "t1" "s" (TaskStatus.mk TaskState.input_required none) none none none)
        (OrchState.mk (some "s") (some true) none none none) false).state.active_agent
        = some "burger_seller_agent" := by
  have h := orch_send_task_session_flags ["burger_seller_agent"] "burger_seller_agent"
    "order" "t1" "m1"
    (Task.mk "t1" "s" (TaskStatus.mk TaskState.input_required none) none none none)
    (OrchState.mk (some "s") (some true) none none none) false "s"
    (by decide) rfl
  have hst : (Task.mk "t1" "s" (TaskStatus.mk TaskState.input_required none)
      none none none).status.state = TaskState.input_required := rfl
  exact ⟨⟨by decide, rfl⟩, h.1, h.2.2 hst⟩

/-- Claim C7: `send_task` with an agent name outside the routing table
raises the unknown-agent error before touching anything: the session state,
the escalation flag are returned exactly as they were, and no request is
sent. -/
theorem orch_send_task_unknown_agent (table : List String)
    (agent_name task_text fTid fMid : String) (respTask : Task)
    (st : OrchState) (esc0 : Bool) (hmem : agent_name ∉ table) :
    orch_send_task table agent_name task_text fTid fMid respTask st esc0
      = { state := st, escalate := esc0, sentRequest := none,
          result := Except.error ("Agent " ++ agent_name ++ " not found") } := by
  simp [orch_send_task, hmem]

/-- A session state used by the concrete orchestrator scenarios: a session
id is present, the session is active, and no task id has been set. -/
def cexState4 : OrchState :=
  { session_id := some "s", session_active := some true,
    active_agent := none, task_id := none, input_message_metadata := none }

/-- A remote response task in the INPUT_REQUIRED state. -/
def cexTask4 : Task :=
  { id := "t1", sessionId := "s",
    status := { state := TaskState.input_required, message := none },
    artifacts := none, history := none, metadata := none }

/-- Witness for claim C7 at the spec's own scenario: sushi_seller_agent is
not in the routing table. -/
theorem orch_send_task_unknown_agent_witness :
    (("sushi_seller_agent" : String) ∉ ["pizza_seller_agent", "burger_seller_agent"])
    ∧ orch_send_task ["pizza_seller_agent", "burger_seller_agent"] "sushi_seller_agent"
        "order sushi" "t1" "m1" cexTask4 cexState4 false
      = { state := cexState4, escalate := false, sentRequest := none,
          result := Except.error ("Agent " ++ "sushi_seller_agent" ++ " not found") } := by
  refine ⟨by decide, ?_⟩
  exact orch_send_task_unknown_agent ["pizza_seller_agent", "burger_seller_agent"]
    "sushi_seller_agent" "order sushi" "t1" "m1" cexTask4 cexState4 false (by decide)

/-- Claim C4 is false as stated: in a session with no pre-existing task id,
an INPUT_REQUIRED response sets the escalation flag, but the minted task id
is NOT retained in the session state, so the next call mints and sends a
fresh id instead of continuing the same task. -/
theorem orch_send_task_task_id_cex :
    (orch_send_task ["burger_seller_agent"] "burger_seller_agent" "order" "t1" "m1"
        cexTask4 cexState4 false).escalate = true
    ∧ (orch_send_task ["burger_seller_agent"] "burger_seller_agent" "order" "t1" "m1"
        cexTask4 cexState4 false).sentRequest.map TaskSendParams.id = some "t1"
    ∧ (orch_send_task ["burger_seller_agent"] "burger_seller_agent" "order" "t1" "m1"
        cexTask4 cexState4 false).state.task_id = none
    ∧ (orch_send_task ["burger_seller_agent"] "burger_seller_agent" "order" "t2" "m2"
        cexTask4
        (orch_send_task ["burger_seller_agent"] "burger_seller_agent" "order" "t1" "m1"
          cexTask4 cexState4 false).state false).sentRequest.map TaskSendParams.id
      = some "t2"
    ∧ ("t2" : String) ≠ "t1" := by
  refine ⟨by decide, by decide, by decide, by decide, by decide⟩

/-- Claim C4 (amended): on INPUT_REQUIRED the escalation flag is set, and
the task id for the request is taken from the session state when present;
but `send_task` never writes the task id back into the session state, so
the id is reused across turns only if something outside `send_task` had
stored it — in a session where it was never stored, each call sends a
freshly minted id. -/
theorem orch_send_task_task_id_spec (table : List String)
    (agent_name task_text fTid fMid : String) (respTask : Task)
    (st : OrchState) (esc0 : Bool) (sid : String)
    (hmem : agent_name ∈ table) (hsid : st.session_id = some sid) :
    (respTask.status.state = TaskState.input_required →
      (orch_send_task table agent_name task_text fTid fMid respTask st
        esc0).escalate = true)
    ∧ (orch_send_task table agent_name task_text fTid fMid respTask st
        esc0).state.task_id = st.task_id
    ∧ (∀ tid, st.task_id = some tid →
        (orch_send_task table agent_name task_text fTid fMid respTask st
          esc0).sentRequest.map TaskSendParams.id = some tid)
    ∧ (st.task_id = none →
        (orch_send_task table agent_name task_text fTid fMid respTask st
          esc0).sentRequest.map TaskSendParams.id = some fTid) := by
  obtain ⟨hstate, hesc, hres, hreq⟩ :=
    orch_send_task_success_shape table agent_name task_text fTid fMid respTask
      st esc0 sid hmem hsid
  refine ⟨?_, ?_, ?_, ?_⟩
  · intro hir
    rw [hesc, if_pos hir]
  · rw [hstate]
  · intro tid htid
    rw [hreq, htid]
  · intro htid
    rw [hreq, htid]

/-- Witness for the amended claim C4 at the concrete fresh-session scenario. -/
theorem orch_send_task_task_id_spec_witness :
    (("burger_seller_agent" : String) ∈ ["burger_seller_agent"]
      ∧ cexState4.session_id = some "s")
    ∧ (orch_send_task ["burger_seller_agent"] "burger_seller_agent" "order" "t1" "m1"
        cexTask4 cexState4 false).escalate = true
    ∧ (orch_send_task ["burger_seller_agent"] "burger_seller_agent" "order" "t1" "m1"
        cexTask4 cexState4 false).state.task_id = cexState4.task_id
    ∧ (orch_send_task ["burger_seller_agent"] "burger_seller_agent" "order" "t1" "m1"
        cexTask4 cexState4 false).sentRequest.map TaskSendParams.id = some "t1" := by
  have h := orch_send_task_task_id_spec ["burger_seller_agent"] "burger_seller_agent"
    "order" "t1" "m1" cexTask4 cexState4 false "s" (by decide) rfl
  exact ⟨⟨by decide, rfl⟩, h.1 rfl, h.2.1, h.2.2.2 rfl⟩

/-- A status message carrying a text part and a non-text part. -/
def cexMsg9 : Message :=
  { role := "agent", parts := [Part.text "hello", Part.other "file"],
    metadata := none }

/-- A response whose status message carries a non-text part and which also
carries an artifact, used against claim C9. -/
def cexTask9 : Task :=
  { id := "t9", sessionId := "s",
    status := { state := TaskState.completed, message := some cexMsg9 },
    artifacts := some [{ parts := [Part.text "art"] }],
    history := none, metadata := none }

/-- Claim C9 is false as stated about the marker text: a part tagged `file`
is rendered as the string `Unknown type: file`, not as an
"unsupported part type" marker; ordering and the one-string-per-part shape
do hold at this input. -/
theorem taskResponseTexts_marker_cex :
    taskResponseTexts cexTask9 = ["hello", "Unknown type: file", "art"]
    ∧ ("Unknown type: file" : String) ≠ "unsupported part type: file" := by
  refine ⟨by decide, by decide⟩

/-- Claim C9 (amended): the conversion maps every part of the status
message followed by every part of every artifact, in order, to exactly one
string each; a text part yields its text and any other tag yields the
explicit marker `Unknown type: <tag>` (which contains the tag), so no part
is silently dropped. -/
theorem taskResponseTexts_spec (task : Task) :
    taskResponseTexts task = (allParts task).map convert_part
    ∧ (taskResponseTexts task).length = (allParts task).length
    ∧ (∀ s, convert_part (Part.text s) = s)
    ∧ (∀ tag, convert_part (Part.other tag) = "Unknown type: " ++ tag) := by
  have hmain : taskResponseTexts task = (allParts task).map convert_part := by
    unfold taskResponseTexts allParts convert_parts
    rcases hm : task.status.message with _ | m <;>
      rcases ha : task.artifacts with _ | arts <;>
        simp [List.map_append, List.map_flatten, List.map_map, Function.comp_def]
  exact ⟨hmain, by rw [hmain, List.length_map], fun s => rfl, fun tag => rfl⟩

/-- The executor's reply, per the spec's external collaborator contract. -/
structure AgentResponse where
  content : String
  require_user_input : Bool
deriving DecidableEq, Repr

/-- The burger task manager's in-memory state: the task table and the
per-task push-notification configurations. -/
structure TMState where
  tasks : List (String × Task)
  pushConfigs : List (String × PushNotificationConfig)
deriving DecidableEq, Repr

/-- Modelled from the spec: `InMemoryTaskManager.upsert_task` (the
a2a_server base class is not shipped under src/): create the task if
absent, else append the inbound message to its history; never errors on
an id re-use. -/
def upsert_task (tasks : List (String × Task)) (p : TaskSendParams) :
    List (String × Task) :=
  match dlookup tasks p.id with
  | none =>
      setItem tasks p.id
        { id := p.id, sessionId := p.sessionId,
          status := { state := TaskState.working, message := none },
          artifacts := none, history := some [p.message], metadata := none }
  | some t =>
      setItem tasks p.id { t with history := some ((t.history.getD []) ++ [p.message]) }

/-- Modelled from the spec: `InMemoryTaskManager.update_store`: NotFound on
an unknown id, else replace the status, append any status message to the
history, append the artifacts, and return the updated task. -/
def update_store (tasks : List (String × Task)) (task_id : String)
    (status : TaskStatus) (artifacts : Option (List Artifact)) :
    Except String (List (String × Task) × Task) :=
  match dlookup tasks task_id with
  | none => Except.error ("Task " ++ task_id ++ " not found")
  | some t =>
      let hist := (t.history.getD [])
        ++ (match status.message with | some m => [m] | none => [])
      let arts := match artifacts with
        | none => t.artifacts
        | some as => some ((t.artifacts.getD []) ++ as)
      let t2 := { t with status := status, history := some hist, artifacts := arts }
      Except.ok (setItem tasks task_id t2, t2)

/-- Modelled from the spec: `append_task_history`: an unset limit returns
the task without history; otherwise the history is truncated to its last
`limit` entries. -/
def append_task_history (t : Task) (historyLength : Option Nat) : Task :=
  match historyLength with
  | none => { t with history := none }
  | some n => { t with history := some (((t.history.getD []).reverse.take n).reverse) }

/-- Modelled from the spec: `utils.are_modalities_compatible`: an empty
requested list is compatible; otherwise some requested content type must be
among the supported ones. -/
def are_modalities_compatible (accepted supported : List String) : Bool :=
  accepted.isEmpty || accepted.any (fun m => supported.contains m)

/-- `BurgerSellerAgent.SUPPORTED_CONTENT_TYPES`. -/
def burgerSupportedContentTypes : List String :=
  ["text", "text/plain"]

/-- Embedding of `AgentTaskManager.set_push_notification_info` from
remote_seller_agents/burger_agent/task_manager.py: issue the ownership
challenge against the config's URL (the challenge outcome is the
`verifier` oracle); only on success store the config for the task id
(the base-class store is modelled from the spec) and report success. -/
def set_push_notification_info (verifier : String → Bool)
    (pushConfigs : List (String × PushNotificationConfig)) (task_id : String)
    (cfg : PushNotificationConfig) :
    List (String × PushNotificationConfig) × Bool :=
  if verifier cfg.url then (setItem pushConfigs task_id cfg, true)
  else (pushConfigs, false)

/-- Embedding of `AgentTaskManager._get_user_query`: the first message part
must be a text part. -/
def get_user_query (p : TaskSendParams) : Except String String :=
  match p.message.parts with
  | Part.text t :: _ => Except.ok t
  | _ => Except.error "Only text parts are supported"

/-- The processing tail of `AgentTaskManager.on_send_task` once
registration is done: mark the task WORKING, invoke the executor, store an
INPUT_REQUIRED status (message) or a COMPLETED status (artifact), and
return the stored task with its history truncated. Notification delivery
is a pure side effect and leaves the state unchanged. -/
def tm_process (agentInvoke : String → String → AgentResponse)
    (st : TMState) (req : TaskSendParams) : TMState × Except String Task :=
  match update_store st.tasks req.id
      { state := TaskState.working, message := none } none with
  | Except.error e => (st, Except.error e)
  | Except.ok (tasks2, _) =>
      match get_user_query req with
      | Except.error e => ({ st with tasks := tasks2 }, Except.error e)
      | Except.ok query =>
          let aresp := agentInvoke query req.sessionId
          let parts : List Part := [Part.text aresp.content]
          let statusArt : TaskStatus × Option (List Artifact) :=
            if aresp.require_user_input then
              ({ state := TaskState.input_required,
                 message := some { role := "agent", parts := parts, metadata := none } },
               none)
            else
              ({ state := TaskState.completed, message := none },
               some [{ parts := parts }])
          match update_store tasks2 req.id statusArt.1 statusArt.2 with
          | Except.error e => ({ st with tasks := tasks2 }, Except.error e)
          | Except.ok (tasks3, task3) =>
              ({ st with tasks := tasks3 },
               Except.ok (append_task_history task3 req.historyLength))

/-- Embedding of `AgentTaskManager.on_send_task` from
remote_seller_agents/burger_agent/task_manager.py: validate the request
(modalities; a push config whose URL is empty), upsert the task, then — if
a push config is supplied — verify URL ownership, rejecting the whole
request with an InvalidParamsError when verification fails; otherwise
process the task. -/
def on_send_task (verifier : String → Bool)
    (agentInvoke : String → String → AgentResponse)
    (st : TMState) (req : TaskSendParams) : TMState × Except String Task :=
  if !(are_modalities_compatible req.acceptedOutputModes burgerSupportedContentTypes) then
    (st, Except.error "Incompatible content types")
  else if (match req.pushNotification with
           | some c => c.url.data.isEmpty
           | none => false) then
    (st, Except.error "Push notification URL is missing")
  else
    let tasks1 := upsert_task st.tasks req
    match req.pushNotification with
    | some cfg =>
        let pr := set_push_notification_info verifier st.pushConfigs req.id cfg
        if pr.2 = false then
          ({ tasks := tasks1, pushConfigs := pr.1 },
           Except.error "Push notification URL is invalid")
        else
          tm_process agentInvoke { tasks := tasks1, pushConfigs := pr.1 } req
    | none =>
        tm_process agentInvoke { tasks := tasks1, pushConfigs := st.pushConfigs } req

theorem tm_process_pushConfigs (agentInvoke : String → String → AgentResponse)
    (s : TMState) (r : TaskSendParams) :
    (tm_process agentInvoke s r).1.pushConfigs = s.pushConfigs := by
  unfold tm_process
  split
  · rfl
  · split
    · rfl
    · dsimp only
      split
      · rfl
      · rfl

/-- Claim C2 (amended): for a send-task request carrying a push config with
a non-empty URL (and compatible output modes), the config is stored for the
task id exactly when the ownership challenge on its URL succeeds; when the
challenge fails, the stored configs are left untouched AND the whole
send-task request is rejected with the `Push notification URL is invalid`
error instead of proceeding without push capability. -/
theorem on_send_task_push_spec (verifier : String → Bool)
    (agentInvoke : String → String → AgentResponse)
    (st : TMState) (req : TaskSendParams) (cfg : PushNotificationConfig)
    (hpn : req.pushNotification = some cfg) (hurl : cfg.url.data ≠ [])
    (hmod : are_modalities_compatible req.acceptedOutputModes
      burgerSupportedContentTypes = true) :
    (verifier cfg.url = true →
      dlookup (on_send_task verifier agentInvoke st req).1.pushConfigs req.id
        = some cfg)
    ∧ (verifier cfg.url = false →
      (on_send_task verifier agentInvoke st req).1.pushConfigs = st.pushConfigs
      ∧ (on_send_task verifier agentInvoke st req).2
          = Except.error "Push notification URL is invalid") := by
  have hempty : cfg.url.data.isEmpty = false := isEmpty_false_of_ne_nil _ hurl
  constructor
  · intro hv
    have hstep : on_send_task verifier agentInvoke st req
        = tm_process agentInvoke
            { tasks := upsert_task st.tasks req,
              pushConfigs := setItem st.pushConfigs req.id cfg } req := by
      simp [on_send_task, hmod, hpn, hempty, set_push_notification_info, hv]
    rw [hstep, tm_process_pushConfigs]
    simp [dlookup_setItem]
  · intro hv
    have hstep : on_send_task verifier agentInvoke st req
        = ({ tasks := upsert_task st.tasks req, pushConfigs := st.pushConfigs },
           Except.error "Push notification URL is invalid") := by
      simp [on_send_task, hmod, hpn, hempty, set_push_notification_info, hv]
    exact ⟨by rw [hstep], by rw [hstep]⟩

/-- A send-task request carrying a push-notification config. -/
def cexReq2 : TaskSendParams :=
  { id := "t1", sessionId := "s",
    message := { role := "user", parts := [Part.text "one burger"], metadata := none },
    acceptedOutputModes := ["text"],
    pushNotification := some { url := "http://cb", token := none },
    historyLength := none, metadata := none }

/-- The initial empty task-manager state. -/
def cexTM0 : TMState :=
  { tasks := [], pushConfigs := [] }

/-- Claim C2 is false as stated: when the ownership challenge fails, the
config is indeed never persisted, but the send-task request does NOT
proceed — `on_send_task` rejects it with the `Push notification URL is
invalid` error instead of processing the task without push capability. -/
theorem on_send_task_push_fail_cex :
    (on_send_task (fun _ => false)
        (fun _ _ => { content := "ok", require_user_input := false })
        cexTM0 cexReq2).2 = Except.error "Push notification URL is invalid"
    ∧ (on_send_task (fun _ => false)
        (fun _ _ => { content := "ok", require_user_input := false })
        cexTM0 cexReq2).1.pushConfigs = [] :=
  ⟨rfl, rfl⟩

/-- Witness for the amended claim C2 at a concrete request, once with a
succeeding challenge and once with a failing one. -/
theorem on_send_task_push_spec_witness :
    (cexReq2.pushNotification = some { url := "http://cb", token := none }
      ∧ ("http://cb" : String).data ≠ []
      ∧ are_modalities_compatible cexReq2.acceptedOutputModes
          burgerSupportedContentTypes = true)
    ∧ dlookup (on_send_task (fun _ => true)
        (fun _ _ => { content := "ok", require_user_input := false })
        cexTM0 cexReq2).1.pushConfigs cexReq2.id
        = some { url := "http://cb", token := none }
    ∧ (on_send_task (fun _ => false)
        (fun _ _ => { content := "ok", require_user_input := false })
        cexTM0 cexReq2).1.pushConfigs = cexTM0.pushConfigs := by
  have h1 := on_send_task_push_spec (fun _ => true)
    (fun _ _ => { content := "ok", require_user_input := false })
    cexTM0 cexReq2 { url := "http://cb", token := none } rfl (by decide) (by decide)
  have h2 := on_send_task_push_spec (fun _ => false)
    (fun _ _ => { content := "ok", require_user_input := false })
    cexTM0 cexReq2 { url := "http://cb", token := none } rfl (by decide) (by decide)
  exact ⟨⟨rfl, by decide, by decide⟩, h1.1 rfl, (h2.2 rfl).1⟩

end A2A
